import Mathlib

/-!
Verification of the Connect-Four session engine (backend core).

We build a shallow embedding of the backend's Board, WinChecker, GameEngine,
Game (session), BotService and MatchmakingService classes and prove the
specified properties about them.  Grids are 6x7 row-major lists of cells
(0 = empty, 1 = player one, 2 = player two); row 0 is the top row and
row 5 the bottom row, exactly as in the source.
-/

set_option maxRecDepth 4000
set_option linter.unnecessarySimpa false

/-- A board grid: rows of cells, row-major, row 0 on top. -/
abbrev Grid := List (List Nat)

/-- Board.getRows() -/
def numRows : Nat := 6

/-- Board.getCols() -/
def numCols : Nat := 7

/-- Cell read with default 0.  The source's Board.getCell throws when the
position is out of bounds; every modelled call site checks bounds before
reading, and program grids are always 6x7, so the default is never the
observed value on those paths. -/
def getCell (g : Grid) (row col : Nat) : Nat :=
  (g.getD row []).getD col 0

/-- Pointwise update of one cell (the pure counterpart of the source's
copy-then-assign on the nested arrays). -/
def setCell (g : Grid) (row col : Nat) (v : Nat) : Grid :=
  g.set row ((g.getD row []).set col v)

/-- Shape well-formedness: the grid the Board class always maintains. -/
def WF (g : Grid) : Prop :=
  g.length = 6 ∧ ∀ row ∈ g, row.length = 7

/-- Gravity invariant: below every disc there is a disc (no floating discs). -/
def Aligned (g : Grid) : Prop :=
  ∀ r < 5, ∀ c < 7, getCell g r c ≠ 0 → getCell g (r + 1) c ≠ 0

/-- The all-empty 6x7 grid built by the Board constructor. -/
def emptyGrid : Grid := List.replicate 6 (List.replicate 7 0)

/-- Bounds test used by WinChecker (indices may be negative mid-scan). -/
def inBoundsZ (r c : Int) : Bool :=
  decide (0 ≤ r) && decide (r < 6) && decide (0 ≤ c) && decide (c < 7)

/-- Cell read at integer coordinates; callers guard with inBoundsZ first. -/
def cellZ (g : Grid) (r c : Int) : Nat :=
  getCell g r.toNat c.toNat

/-- One probe of WinChecker.countInDirection: the cell `k` steps from the
origin along axis (dr, dc) is in bounds and holds `player`. -/
def matchAtZ (g : Grid) (player : Nat) (row col dr dc k : Int) : Bool :=
  inBoundsZ (row + dr * k) (col + dc * k) &&
    (cellZ g (row + dr * k) (col + dc * k) == player)

/-- The number of consecutive matches at offsets 1, 2, 3 (the source's
`for i = 1; i < WIN_LENGTH; i++ { ... else break }` loop, unrolled). -/
def countSide (g : Grid) (player : Nat) (row col dr dc : Int) : Nat :=
  if matchAtZ g player row col dr dc 1 then
    if matchAtZ g player row col dr dc 2 then
      if matchAtZ g player row col dr dc 3 then 3 else 2
    else 1
  else 0

/-- WinChecker.countInDirection: origin plus the consecutive runs forward and
backward along the axis (the backward loop uses startRow - deltaRow * i,
i.e. the axis with both deltas negated). -/
def countInDirection (g : Grid) (player : Nat) (row col dr dc : Int) : Nat :=
  1 + countSide g player row col dr dc + countSide g player row col (-dr) (-dc)

/-- WinChecker.checkWin over the four axis directions
(0,1), (1,0), (1,1), (1,-1). -/
def checkWin (row col : Int) (player : Nat) (g : Grid) : Bool :=
  if !(inBoundsZ row col) then false
  else if cellZ g row col != player then false
  else
    decide (4 ≤ countInDirection g player row col 0 1) ||
    decide (4 ≤ countInDirection g player row col 1 0) ||
    decide (4 ≤ countInDirection g player row col 1 1) ||
    decide (4 ≤ countInDirection g player row col 1 (-1))

/-- Specification predicate: along axis (dr, dc) there is a window of four
contiguous in-bounds cells, all holding `player`, that contains the origin
cell (offsets -b .. 3-b for some backshift b in 0..3). -/
def lineOfFour (g : Grid) (player : Nat) (row col dr dc : Int) : Prop :=
  ∃ b : Fin 4, ∀ i : Fin 4,
    matchAtZ g player row col dr dc ((i.val : Int) - (b.val : Int)) = true

lemma matchAtZ_neg (g : Grid) (p : Nat) (row col dr dc k : Int) :
    matchAtZ g p row col (-dr) (-dc) k = matchAtZ g p row col dr dc (-k) := by
  unfold matchAtZ
  rw [show (-dr) * k = dr * (-k) by ring, show (-dc) * k = dc * (-k) by ring]

lemma matchAtZ_zero (g : Grid) (p : Nat) (row col dr dc : Int) :
    matchAtZ g p row col dr dc 0 =
      (inBoundsZ row col && (cellZ g row col == p)) := by
  unfold matchAtZ
  rw [show dr * 0 = 0 by ring, show dc * 0 = 0 by ring, add_zero, add_zero]

lemma lineOfFour_iff_disj (g : Grid) (p : Nat) (row col dr dc : Int)
    (h0 : matchAtZ g p row col dr dc 0 = true) :
    lineOfFour g p row col dr dc ↔
      ((matchAtZ g p row col dr dc 1 = true ∧ matchAtZ g p row col dr dc 2 = true ∧
          matchAtZ g p row col dr dc 3 = true) ∨
       (matchAtZ g p row col dr dc (-1) = true ∧ matchAtZ g p row col dr dc 1 = true ∧
          matchAtZ g p row col dr dc 2 = true) ∨
       (matchAtZ g p row col dr dc (-2) = true ∧ matchAtZ g p row col dr dc (-1) = true ∧
          matchAtZ g p row col dr dc 1 = true) ∨
       (matchAtZ g p row col dr dc (-3) = true ∧ matchAtZ g p row col dr dc (-2) = true ∧
          matchAtZ g p row col dr dc (-1) = true)) := by
  constructor
  · rintro ⟨b, hb⟩
    fin_cases b
    · exact Or.inl ⟨by simpa using hb 1, by simpa using hb 2, by simpa using hb 3⟩
    · exact Or.inr (Or.inl ⟨by simpa using hb 0, by simpa using hb 2, by simpa using hb 3⟩)
    · refine Or.inr (Or.inr (Or.inl ⟨?_, ?_, by simpa using hb 3⟩))
      · have := hb 0
        norm_num at this
        exact this
      · have := hb 1
        norm_num at this
        exact this
    · refine Or.inr (Or.inr (Or.inr ⟨?_, ?_, ?_⟩))
      · have := hb 0
        norm_num at this
        exact this
      · have := hb 1
        norm_num at this
        exact this
      · have := hb 2
        norm_num at this
        exact this
  · rintro (⟨h1, h2, h3⟩ | ⟨hm1, h1, h2⟩ | ⟨hm2, hm1, h1⟩ | ⟨hm3, hm2, hm1⟩)
    · exact ⟨0, fun i => by fin_cases i <;> simpa [h0, h1, h2, h3]⟩
    · exact ⟨1, fun i => by fin_cases i <;> simpa [h0, hm1, h1, h2]⟩
    · exact ⟨2, fun i => by fin_cases i <;> simpa [h0, hm2, hm1, h1]⟩
    · exact ⟨3, fun i => by fin_cases i <;> simpa [h0, hm3, hm2, hm1]⟩

lemma count_ge4_iff_lineOfFour (g : Grid) (p : Nat) (row col dr dc : Int)
    (h0 : matchAtZ g p row col dr dc 0 = true) :
    4 ≤ countInDirection g p row col dr dc ↔ lineOfFour g p row col dr dc := by
  rw [lineOfFour_iff_disj g p row col dr dc h0]
  unfold countInDirection countSide
  rw [matchAtZ_neg g p row col dr dc 1, matchAtZ_neg g p row col dr dc 2,
      matchAtZ_neg g p row col dr dc 3]
  generalize matchAtZ g p row col dr dc 1 = a
  generalize matchAtZ g p row col dr dc 2 = b
  generalize matchAtZ g p row col dr dc 3 = c
  generalize matchAtZ g p row col dr dc (-1) = d
  generalize matchAtZ g p row col dr dc (-2) = e
  generalize matchAtZ g p row col dr dc (-3) = f
  cases a <;> cases b <;> cases c <;> cases d <;> cases e <;> cases f <;> decide

/-- C1. WinChecker.checkWin returns true iff the origin cell is in bounds,
holds the player, and one of the four axes has a window of four contiguous
same-player cells through the origin; it is false whenever the origin is
out of bounds or does not hold the player. -/
theorem checkWin_iff_lineOfFour (g : Grid) (row col : Int) (p : Nat) :
    checkWin row col p g = true ↔
      (inBoundsZ row col = true ∧ cellZ g row col = p ∧
        (lineOfFour g p row col 0 1 ∨ lineOfFour g p row col 1 0 ∨
         lineOfFour g p row col 1 1 ∨ lineOfFour g p row col 1 (-1))) := by
  by_cases hb : inBoundsZ row col = true
  · by_cases hc : cellZ g row col = p
    · have h0 : ∀ dr dc : Int, matchAtZ g p row col dr dc 0 = true := by
        intro dr dc
        rw [matchAtZ_zero, hb, hc]
        simp
      rw [show checkWin row col p g =
            (decide (4 ≤ countInDirection g p row col 0 1) ||
             decide (4 ≤ countInDirection g p row col 1 0) ||
             decide (4 ≤ countInDirection g p row col 1 1) ||
             decide (4 ≤ countInDirection g p row col 1 (-1))) by
        unfold checkWin
        rw [hb]
        simp [hc]]
      simp only [Bool.or_eq_true, decide_eq_true_eq]
      rw [count_ge4_iff_lineOfFour g p row col 0 1 (h0 0 1),
          count_ge4_iff_lineOfFour g p row col 1 0 (h0 1 0),
          count_ge4_iff_lineOfFour g p row col 1 1 (h0 1 1),
          count_ge4_iff_lineOfFour g p row col 1 (-1) (h0 1 (-1))]
      tauto
    · simp [checkWin, hb, hc]
  · rw [Bool.not_eq_true] at hb
    simp [checkWin, hb]

/-- Board.isValidMove: column in range and top cell empty. -/
def isValidMove (g : Grid) (column : Int) : Bool :=
  if column < 0 || 7 ≤ column then false
  else getCell g 0 column.toNat == 0

/-- Scan of Board.placeDisc's `while (row >= 0 && grid[row][column] !== 0) row--`
loop, descending from row `r`: the first empty cell from the bottom. -/
def lowRowGo (g : Grid) (c : Nat) : Nat → Option Nat
  | 0 => if getCell g 0 c ≠ 0 then none else some 0
  | r + 1 => if getCell g (r + 1) c ≠ 0 then lowRowGo g c r else some (r + 1)

/-- The landing row of Board.placeDisc: scan starts at the bottom row 5. -/
def lowestEmptyRow (g : Grid) (c : Nat) : Option Nat := lowRowGo g c 5

/-- Board.placeDisc: `none` models the thrown InvalidMove error. -/
def placeDisc (g : Grid) (column : Int) (player : Nat) : Option Grid :=
  if !(isValidMove g column) then none
  else
    match lowestEmptyRow g column.toNat with
    | none => none
    | some row => some (setCell g row column.toNat player)

/-- GameEngine.findRowForColumn: topmost non-empty cell of the column
(`none` models the -1 return). -/
def findRowForColumn (g : Grid) (column : Int) : Option Nat :=
  (List.range 6).find? (fun r => getCell g r column.toNat != 0)

/-- Board.isFull: every column's top cell is occupied. -/
def isFull (g : Grid) : Bool :=
  (List.range 7).all (fun c => getCell g 0 c != 0)

/-- Board.getAvailableColumns. -/
def getAvailableColumns (g : Grid) : List Nat :=
  (List.range 7).filter (fun c => isValidMove g (c : Int))

/-- WinChecker.findWinner: row-major scan for the first winning cell. -/
def findWinner (g : Grid) : Option Nat :=
  (List.range 6).findSome? (fun r =>
    (List.range 7).findSome? (fun c =>
      let v := getCell g r c
      if v != 0 && checkWin (r : Int) (c : Int) v g then some v else none))

inductive GameStatus where
  | playing
  | won
  | draw
  deriving DecidableEq, Repr

/-- The MoveResult record returned by GameEngine.makeMove. -/
structure MoveResult where
  row : Nat
  col : Int
  status : GameStatus
  winner : Option Nat
  deriving DecidableEq, Repr

/-- GameEngine state: board plus whose turn it is. -/
structure Engine where
  board : Grid
  currentPlayer : Nat
  deriving DecidableEq, Repr

/-- GameEngine.makeMove.  Errors model the thrown exceptions; in the source
every throw happens before `this.board`/`this.currentPlayer` are assigned,
so an error leaves the engine unchanged.  On a winning or drawing move the
board is updated but the turn is not advanced. -/
def engineMakeMove (e : Engine) (column : Int) : Except String (Engine × MoveResult) :=
  if !(isValidMove e.board column) then .error "Invalid move"
  else
    match placeDisc e.board column e.currentPlayer with
    | none => .error "Invalid move"
    | some nb =>
      match findRowForColumn nb column with
      | none => .error "Failed to find row"
      | some row =>
        if getCell nb row column.toNat ≠ e.currentPlayer then
          .error "Disc placement mismatch"
        else if checkWin (row : Int) column e.currentPlayer nb then
          .ok (⟨nb, e.currentPlayer⟩, ⟨row, column, .won, some e.currentPlayer⟩)
        else if isFull nb then
          .ok (⟨nb, e.currentPlayer⟩, ⟨row, column, .draw, none⟩)
        else
          .ok (⟨nb, if e.currentPlayer = 1 then 2 else 1⟩, ⟨row, column, .playing, none⟩)

/-- GameEngine.getGameStatus (full-board recovery variant). -/
def gameStatusE (e : Engine) : GameStatus :=
  if (findWinner e.board).isSome then .won
  else if isFull e.board then .draw
  else .playing

/-- GameEngine.getWinner. -/
def getWinnerE (e : Engine) : Option Nat := findWinner e.board

/-- GameEngine.clone: a fresh engine with the same board reference and turn. -/
def cloneE (e : Engine) : Engine := ⟨e.board, e.currentPlayer⟩

lemma getD_set_self {α : Type _} (l : List α) (i : Nat) (a d : α) (h : i < l.length) :
    (l.set i a).getD i d = a := by
  induction l generalizing i with
  | nil => simp at h
  | cons x xs ih =>
    cases i with
    | zero => rfl
    | succ j =>
      simp only [List.set_cons_succ, List.getD_cons_succ]
      exact ih j (by simpa using h)

lemma getD_set_ne {α : Type _} (l : List α) (i j : Nat) (a d : α) (h : i ≠ j) :
    (l.set i a).getD j d = l.getD j d := by
  induction l generalizing i j with
  | nil => rfl
  | cons x xs ih =>
    cases i with
    | zero =>
      cases j with
      | zero => exact absurd rfl h
      | succ j' => rfl
    | succ i' =>
      cases j with
      | zero => rfl
      | succ j' =>
        simp only [List.set_cons_succ, List.getD_cons_succ]
        exact ih i' j' (fun hh => h (by rw [hh]))

lemma getD_mem {α : Type _} (l : List α) (i : Nat) (d : α) (h : i < l.length) :
    l.getD i d ∈ l := by
  induction l generalizing i with
  | nil => simp at h
  | cons x xs ih =>
    cases i with
    | zero => exact List.mem_cons_self x xs
    | succ j => exact List.mem_cons_of_mem x (ih j (by simpa using h))

lemma lowRowGo_spec (g : Grid) (c : Nat) :
    ∀ r r', lowRowGo g c r = some r' →
      r' ≤ r ∧ getCell g r' c = 0 ∧ ∀ r'', r' < r'' → r'' ≤ r → getCell g r'' c ≠ 0 := by
  intro r
  induction r with
  | zero =>
    intro r' h
    unfold lowRowGo at h
    by_cases h0 : getCell g 0 c ≠ 0
    · simp [h0] at h
    · simp [h0] at h
      subst h
      refine ⟨le_refl 0, by omega, ?_⟩
      intro r'' h1 h2
      omega
  | succ r ih =>
    intro r' h
    unfold lowRowGo at h
    by_cases h0 : getCell g (r + 1) c ≠ 0
    · simp [h0] at h
      obtain ⟨hle, hzero, hrest⟩ := ih r' h
      refine ⟨Nat.le_succ_of_le hle, hzero, ?_⟩
      intro r'' h1 h2
      rcases Nat.lt_or_ge r'' (r + 1) with hlt | hge
      · exact hrest r'' h1 (by omega)
      · have : r'' = r + 1 := by omega
        rw [this]
        exact h0
    · simp [h0] at h
      subst h
      refine ⟨le_refl _, by omega, ?_⟩
      intro r'' h1 h2
      omega

lemma lowRowGo_none (g : Grid) (c : Nat) :
    ∀ r, lowRowGo g c r = none → ∀ r' ≤ r, getCell g r' c ≠ 0 := by
  intro r
  induction r with
  | zero =>
    intro h r' hr'
    unfold lowRowGo at h
    by_cases h0 : getCell g 0 c ≠ 0
    · have : r' = 0 := by omega
      rw [this]
      exact h0
    · simp [h0] at h
  | succ r ih =>
    intro h r' hr'
    unfold lowRowGo at h
    by_cases h0 : getCell g (r + 1) c ≠ 0
    · simp [h0] at h
      rcases Nat.lt_or_ge r' (r + 1) with hlt | hge
      · exact ih h r' (by omega)
      · have : r' = r + 1 := by omega
        rw [this]
        exact h0
    · simp [h0] at h

lemma aligned_column_full (g : Grid) (hAl : Aligned g) (c : Nat) (hc : c < 7)
    (htop : getCell g 0 c ≠ 0) : ∀ r < 6, getCell g r c ≠ 0 := by
  intro r hr
  induction r with
  | zero => exact htop
  | succ r ih =>
    exact hAl r (by omega) c hc (ih (by omega))


lemma isValidMove_iff (g : Grid) (column : Int) :
    isValidMove g column = true ↔
      (0 ≤ column ∧ column < 7 ∧ getCell g 0 column.toNat = 0) := by
  unfold isValidMove
  split
  next hcond =>
    simp only [Bool.or_eq_true, decide_eq_true_eq] at hcond
    constructor
    · intro h
      exact absurd h (by simp)
    · rintro ⟨h1, h2, _⟩
      exfalso
      rcases hcond with h | h <;> omega
  next hcond =>
    simp only [Bool.or_eq_true, decide_eq_true_eq, not_or, not_lt, not_le] at hcond
    simp only [beq_iff_eq]
    exact ⟨fun h => ⟨hcond.1, hcond.2, h⟩, fun h => h.2.2⟩

/-- C3. Board.placeDisc fails exactly when the column is out of range or
full; on success it sets the lowest empty cell of the column to the player
and leaves every other cell unchanged (the receiver itself is a pure value
and is never mutated); a column never holds more than its six rows of
discs, and a full column is not a valid move. -/
theorem placeDisc_spec (g : Grid) (hWF : WF g) (hAl : Aligned g)
    (column : Int) (p : Nat) :
    (placeDisc g column p = none ↔
      column < 0 ∨ 7 ≤ column ∨ ∀ r < 6, getCell g r column.toNat ≠ 0) ∧
    (∀ g', placeDisc g column p = some g' →
      ∃ r, r < 6 ∧ getCell g r column.toNat = 0 ∧
        (∀ r', r < r' → r' < 6 → getCell g r' column.toNat ≠ 0) ∧
        getCell g' r column.toNat = p ∧
        (∀ r₂, r₂ < 6 → ∀ c₂, c₂ < 7 → ¬(r₂ = r ∧ c₂ = column.toNat) →
          getCell g' r₂ c₂ = getCell g r₂ c₂) ∧
        (List.range 6).countP (fun r₂ => getCell g' r₂ column.toNat != 0) ≤ 6) ∧
    ((∀ r < 6, getCell g r column.toNat ≠ 0) → isValidMove g column = false) := by
  refine ⟨⟨?_, ?_⟩, ?_, ?_⟩
  · intro hnone
    cases hv : isValidMove g column with
    | true =>
      exfalso
      obtain ⟨h0, h7, htop⟩ := (isValidMove_iff g column).mp hv
      unfold placeDisc at hnone
      rw [hv] at hnone
      simp only [Bool.not_true] at hnone
      match hlow : lowestEmptyRow g column.toNat with
      | some row =>
        rw [hlow] at hnone
        simp at hnone
      | none =>
        exact lowRowGo_none g column.toNat 5 hlow 0 (by omega) htop
    | false =>
      by_cases hneg : column < 0
      · exact Or.inl hneg
      · by_cases h7 : 7 ≤ column
        · exact Or.inr (Or.inl h7)
        · refine Or.inr (Or.inr ?_)
          have htop : getCell g 0 column.toNat ≠ 0 := by
            intro htop
            have := (isValidMove_iff g column).mpr ⟨by omega, by omega, htop⟩
            rw [hv] at this
            exact Bool.false_ne_true this
          exact aligned_column_full g hAl column.toNat (by omega) htop
  · intro h
    have hv : isValidMove g column = false := by
      cases hB : isValidMove g column with
      | false => rfl
      | true =>
        exfalso
        obtain ⟨h0, h7, htop⟩ := (isValidMove_iff g column).mp hB
        rcases h with h | h | h
        · omega
        · omega
        · exact h 0 (by omega) htop
    unfold placeDisc
    rw [hv]
    rfl
  · intro g' hsome
    unfold placeDisc at hsome
    cases hv : isValidMove g column with
    | false =>
      rw [hv] at hsome
      simp at hsome
    | true =>
      rw [hv] at hsome
      simp only [Bool.not_true] at hsome
      obtain ⟨h0, h7, htop⟩ := (isValidMove_iff g column).mp hv
      match hlow : lowestEmptyRow g column.toNat with
      | none =>
        rw [hlow] at hsome
        simp at hsome
      | some row =>
        rw [hlow] at hsome
        simp at hsome
        obtain ⟨hle, hzero, habove⟩ := lowRowGo_spec g column.toNat 5 row hlow
        have hcol7 : column.toNat < 7 := by omega
        have hrow6 : row < 6 := by omega
        have hglen : g.length = 6 := hWF.1
        have hrowlen : (g.getD row []).length = 7 :=
          hWF.2 (g.getD row []) (getD_mem g row [] (by omega))
        refine ⟨row, hrow6, hzero, ?_, ?_, ?_, ?_⟩
        · intro r' h1 h2
          exact habove r' h1 (by omega)
        · rw [← hsome]
          unfold getCell setCell
          rw [getD_set_self g row _ [] (by omega),
              getD_set_self _ column.toNat p 0 (by omega)]
        · intro r₂ hr₂ c₂ hc₂ hne
          rw [← hsome]
          unfold getCell setCell
          by_cases hr : r₂ = row
          · subst hr
            have hcne : c₂ ≠ column.toNat := fun hh => hne ⟨rfl, hh⟩
            rw [getD_set_self g r₂ _ [] (by omega),
                getD_set_ne _ column.toNat c₂ p 0 (fun hh => hcne hh.symm)]
          · rw [getD_set_ne g row r₂ _ [] (fun hh => hr hh.symm)]
        · calc (List.range 6).countP (fun r₂ => getCell g' r₂ column.toNat != 0)
              ≤ (List.range 6).length := List.countP_le_length _
          _ = 6 := List.length_range 6
  · intro h
    cases hB : isValidMove g column with
    | false => rfl
    | true =>
      exfalso
      obtain ⟨h0, h7, htop⟩ := (isValidMove_iff g column).mp hB
      exact h 0 (by omega) htop

/-- Witness for C3 at the empty board, column 0, player 1. -/
theorem placeDisc_spec_witness :
    (placeDisc emptyGrid 0 1 = none ↔
      (0 : Int) < 0 ∨ 7 ≤ (0 : Int) ∨ ∀ r < 6, getCell emptyGrid r (0 : Int).toNat ≠ 0) ∧
    (∀ g', placeDisc emptyGrid 0 1 = some g' →
      ∃ r, r < 6 ∧ getCell emptyGrid r (0 : Int).toNat = 0 ∧
        (∀ r', r < r' → r' < 6 → getCell emptyGrid r' (0 : Int).toNat ≠ 0) ∧
        getCell g' r (0 : Int).toNat = 1 ∧
        (∀ r₂, r₂ < 6 → ∀ c₂, c₂ < 7 → ¬(r₂ = r ∧ c₂ = (0 : Int).toNat) →
          getCell g' r₂ c₂ = getCell emptyGrid r₂ c₂) ∧
        (List.range 6).countP (fun r₂ => getCell g' r₂ (0 : Int).toNat != 0) ≤ 6) ∧
    ((∀ r < 6, getCell emptyGrid r (0 : Int).toNat ≠ 0) → isValidMove emptyGrid 0 = false) :=
  placeDisc_spec emptyGrid ⟨by decide, by decide⟩
    (by unfold Aligned; decide) 0 1

/-- Session state (the Game class): two identities, the engine, the recorded
winner and the last-move timestamp.  Identity ids are an abstract type with
decidable equality (the source uses opaque string ids). -/
structure Session (ι : Type) where
  p1 : ι
  p2 : ι
  engine : Engine
  winnerId : Option ι
  lastMoveAt : Nat
  deriving DecidableEq

/-- Game.getCurrentPlayer. -/
def currentPlayerId {ι : Type} (s : Session ι) : ι :=
  if s.engine.currentPlayer = 1 then s.p1 else s.p2

/-- Game.isPlayerTurn. -/
def isPlayerTurn {ι : Type} [DecidableEq ι] (s : Session ι) (pid : ι) : Bool :=
  decide (currentPlayerId s = pid)

/-- Game.getStatus. -/
def gameGetStatus {ι : Type} (s : Session ι) : GameStatus :=
  if s.winnerId.isSome then .won else gameStatusE s.engine

/-- Game.makeMove.  The pair holds the thrown error (if any) together with
the session state as it stands when control leaves the method; every throw
in the source happens before any field of the Game or its engine is
assigned, except the two consistency checks, which run after the board,
timestamp and winner have been updated. -/
def gameMakeMove {ι : Type} [DecidableEq ι] (s : Session ι) (now : Nat)
    (column : Int) (pid : ι) : Except String Unit × Session ι :=
  if !(isPlayerTurn s pid) then (.error "Not your turn", s)
  else
    match engineMakeMove s.engine column with
    | .error msg => (.error msg, s)
    | .ok (e', res) =>
      let s1 : Session ι := { s with engine := e', lastMoveAt := now }
      match res.status, res.winner with
      | .won, some w =>
        let s2 : Session ι := { s1 with winnerId := some (if w = 1 then s.p1 else s.p2) }
        if getWinnerE e' ≠ some w then (.error "Win detection mismatch", s2)
        else (.ok (), s2)
      | .draw, _ =>
        let s2 : Session ι := { s1 with winnerId := none }
        if gameStatusE e' ≠ .draw then (.error "Draw detection mismatch", s2)
        else (.ok (), s2)
      | _, _ => (.ok (), s1)

/-- Runs a list of (column, mover) intents through Game.makeMove, keeping
whatever state each call leaves behind. -/
def runMoves {ι : Type} [DecidableEq ι] (s : Session ι) : List (Int × ι) → Session ι
  | [] => s
  | (c, pid) :: rest => runMoves (gameMakeMove s 0 c pid).2 rest

/-- True iff every intent in the list is accepted (no error thrown). -/
def movesAccepted {ι : Type} [DecidableEq ι] (s : Session ι) : List (Int × ι) → Bool
  | [] => true
  | (c, pid) :: rest =>
    match gameMakeMove s 0 c pid with
    | (.ok _, s') => movesAccepted s' rest
    | (.error _, _) => false

/-- The session used to exhibit the post-terminal move acceptance. -/
def sessC2 : Session Nat := ⟨1, 2, ⟨emptyGrid, 1⟩, none, 0⟩

/-- Seven alternating legal moves; the seventh gives identity 1 a vertical
four-in-a-row in column 0. -/
def movesC2 : List (Int × Nat) := [(0, 1), (1, 2), (0, 1), (1, 2), (0, 1), (1, 2), (0, 1)]

/-- C2 (failing-input evaluation).  After a sequence of accepted moves ends
the session as won, Game.makeMove still accepts a further move from the
winning identity (the winner is still the identity to move because the turn
did not advance), mutating the board — the session does not reject moves
after a terminal result. -/
theorem gameMakeMove_accepted_after_win :
    movesAccepted sessC2 movesC2 = true ∧
    gameGetStatus (runMoves sessC2 movesC2) = .won ∧
    (runMoves sessC2 movesC2).winnerId = some 1 ∧
    (gameMakeMove (runMoves sessC2 movesC2) 1 2 1).1 = .ok () ∧
    (gameMakeMove (runMoves sessC2 movesC2) 1 2 1).2.engine.board ≠
      (runMoves sessC2 movesC2).engine.board := by
  refine ⟨by decide, by decide, by decide, by rfl, by decide⟩

/-- C8. An illegal column or a wrong-turn caller makes Game.makeMove throw
(InvalidMove / NotYourTurn) and leaves the whole session state — board,
current player, recorded winner and last-move timestamp — unchanged. -/
theorem gameMakeMove_rejects_without_mutation {ι : Type} [DecidableEq ι]
    (s : Session ι) (now : Nat) (column : Int) (pid : ι)
    (h : isValidMove s.engine.board column = false ∨ isPlayerTurn s pid = false) :
    (∃ msg, (gameMakeMove s now column pid).1 = .error msg) ∧
    (gameMakeMove s now column pid).2 = s := by
  cases hT : isPlayerTurn s pid with
  | false =>
    unfold gameMakeMove
    rw [hT]
    exact ⟨⟨"Not your turn", rfl⟩, rfl⟩
  | true =>
    have hInv : isValidMove s.engine.board column = false := by
      rcases h with h | h
      · exact h
      · rw [hT] at h
        exact absurd h (by simp)
    have hEng : engineMakeMove s.engine column = .error "Invalid move" := by
      unfold engineMakeMove
      rw [hInv]
      rfl
    unfold gameMakeMove
    rw [hT, hEng]
    exact ⟨⟨"Invalid move", rfl⟩, rfl⟩

/-- Witness for C8: an out-of-range column on a fresh session is rejected
with the session unchanged. -/
theorem gameMakeMove_rejects_witness :
    (∃ msg, (gameMakeMove sessC2 5 (-1) 1).1 = .error msg) ∧
    (gameMakeMove sessC2 5 (-1) 1).2 = sessC2 :=
  gameMakeMove_rejects_without_mutation sessC2 5 (-1) 1 (Or.inl (by decide))

/-- A matchmaking queue entry (QueuedPlayerWithGame): the identity, an
optional pre-assigned session id, and whether a match callback was
supplied; the armed fallback-AI timer is tracked per identity in the
service state below. -/
structure QueuedPlayer (ι : Type) where
  pid : ι
  gameId : Option String
  hasOnMatch : Bool
  deriving DecidableEq

/-- MatchmakingService state: the FIFO queue, the set of armed fallback-AI
timers (by identity), the sessions created via createGame, and the matches
delivered through an onMatch callback instead. -/
structure MMState (ι : Type) where
  queue : List (QueuedPlayer ι)
  armedTimers : List ι
  created : List (ι × ι)
  matchEvents : List (ι × ι)
  deriving DecidableEq

/-- MatchmakingService.findMatch: takes the two longest-waiting entries and
cancels their fallback timers; with fewer than two entries no pair forms. -/
def findMatch {ι : Type} [DecidableEq ι] (st : MMState ι) :
    Option (QueuedPlayer ι × QueuedPlayer ι × MMState ι) :=
  match st.queue with
  | q1 :: q2 :: rest =>
    some (q1, q2,
      { st with
        queue := rest
        armedTimers := st.armedTimers.filter
          (fun x => !(decide (x = q1.pid)) && !(decide (x = q2.pid))) })
  | _ => none

/-- MatchmakingService.addPlayer: rejects a duplicate identity, enqueues,
attempts a FIFO pairing, and otherwise arms the fallback-AI timer when no
pre-assigned session id was given. -/
def addPlayer {ι : Type} [DecidableEq ι] (st : MMState ι) (pid : ι)
    (gameId : Option String) (hasOnMatch : Bool) : MMState ι :=
  if st.queue.any (fun q => decide (q.pid = pid)) then st
  else
    let st1 : MMState ι := { st with queue := st.queue ++ [⟨pid, gameId, hasOnMatch⟩] }
    match findMatch st1 with
    | some (q1, q2, st2) =>
      if q1.gameId.isSome && q1.hasOnMatch then
        { st2 with matchEvents := st2.matchEvents ++ [(q1.pid, q2.pid)] }
      else if q2.gameId.isSome && q2.hasOnMatch then
        { st2 with matchEvents := st2.matchEvents ++ [(q2.pid, q1.pid)] }
      else { st2 with created := st2.created ++ [(q1.pid, q2.pid)] }
    | none =>
      if gameId.isNone then { st1 with armedTimers := st1.armedTimers ++ [pid] }
      else st1

/-- C7. From an empty queue, enqueueing identity A (no session id) and then
a distinct identity B (no session id) creates exactly one session pairing
A with B, leaves the queue empty, and cancels the fallback-AI timer armed
for A; enqueueing an identity already present in the queue changes
nothing. -/
theorem addPlayer_pairs_and_rejects_duplicates {ι : Type} [DecidableEq ι]
    (A B : ι) (hAB : A ≠ B) :
    (addPlayer (⟨[], [], [], []⟩ : MMState ι) A none false).queue = [⟨A, none, false⟩] ∧
    (addPlayer (⟨[], [], [], []⟩ : MMState ι) A none false).armedTimers = [A] ∧
    (addPlayer (⟨[], [], [], []⟩ : MMState ι) A none false).created = [] ∧
    (addPlayer (addPlayer (⟨[], [], [], []⟩ : MMState ι) A none false) B none false).queue = [] ∧
    (addPlayer (addPlayer (⟨[], [], [], []⟩ : MMState ι) A none false) B none false).armedTimers = [] ∧
    (addPlayer (addPlayer (⟨[], [], [], []⟩ : MMState ι) A none false) B none false).created = [(A, B)] ∧
    (addPlayer (addPlayer (⟨[], [], [], []⟩ : MMState ι) A none false) B none false).matchEvents = [] ∧
    (∀ (st : MMState ι) (pid : ι) (g : Option String) (hm : Bool),
      st.queue.any (fun q => decide (q.pid = pid)) = true → addPlayer st pid g hm = st) := by
  have h1 : addPlayer (⟨[], [], [], []⟩ : MMState ι) A none false =
      ⟨[⟨A, none, false⟩], [A], [], []⟩ := by
    unfold addPlayer findMatch
    simp
  have hBA : ¬(A = B) := hAB
  have h2 : addPlayer (⟨[⟨A, none, false⟩], [A], [], []⟩ : MMState ι) B none false =
      ⟨[], [], [(A, B)], []⟩ := by
    unfold addPlayer findMatch
    simp [hBA]
  rw [h1, h2]
  refine ⟨rfl, rfl, rfl, rfl, rfl, rfl, rfl, ?_⟩
  intro st pid g hm hdup
  unfold addPlayer
  rw [hdup]
  rfl

/-- Witness for C7 with identities 0 and 1. -/
theorem addPlayer_pairs_witness :
    (addPlayer (⟨[], [], [], []⟩ : MMState Nat) 0 none false).queue = [⟨0, none, false⟩] ∧
    (addPlayer (⟨[], [], [], []⟩ : MMState Nat) 0 none false).armedTimers = [0] ∧
    (addPlayer (⟨[], [], [], []⟩ : MMState Nat) 0 none false).created = [] ∧
    (addPlayer (addPlayer (⟨[], [], [], []⟩ : MMState Nat) 0 none false) 1 none false).queue = [] ∧
    (addPlayer (addPlayer (⟨[], [], [], []⟩ : MMState Nat) 0 none false) 1 none false).armedTimers = [] ∧
    (addPlayer (addPlayer (⟨[], [], [], []⟩ : MMState Nat) 0 none false) 1 none false).created = [(0, 1)] ∧
    (addPlayer (addPlayer (⟨[], [], [], []⟩ : MMState Nat) 0 none false) 1 none false).matchEvents = [] ∧
    (∀ (st : MMState Nat) (pid : Nat) (g : Option String) (hm : Bool),
      st.queue.any (fun q => decide (q.pid = pid)) = true → addPlayer st pid g hm = st) :=
  addPlayer_pairs_and_rejects_duplicates 0 1 (by decide)

/-- A store of allocated Boards: GameEngine instances hold a reference into
it, so sharing and copying of Board objects is explicit. -/
abbrev Store := List Grid

/-- A GameEngine whose board field is a reference into a store. -/
structure EngineRef where
  boardRef : Nat
  currentPlayer : Nat
  deriving DecidableEq

/-- Dereference a board. -/
def readBoard (s : Store) (a : Nat) : Grid := s.getD a []

/-- GameEngine.clone: copies the two fields; the board reference is shared
with the original. -/
def cloneRef (e : EngineRef) : EngineRef := ⟨e.boardRef, e.currentPlayer⟩

/-- Board.placeDisc in the store model: reads the referenced grid, builds
the updated grid as a fresh allocation, and never writes through existing
references (the source copies `this.grid` into a new Board). -/
def placeDiscRef (s : Store) (a : Nat) (column : Int) (p : Nat) :
    Option (Store × Nat) :=
  match placeDisc (readBoard s a) column p with
  | none => none
  | some g => some (s ++ [g], s.length)

/-- GameEngine.makeMove in the store model: on success the engine's board
field is redirected to the fresh allocation. -/
def makeMoveRef (s : Store) (e : EngineRef) (column : Int) :
    Except String (Store × EngineRef × MoveResult) :=
  if !(isValidMove (readBoard s e.boardRef) column) then .error "Invalid move"
  else
    match placeDiscRef s e.boardRef column e.currentPlayer with
    | none => .error "Invalid move"
    | some (s1, newRef) =>
      match findRowForColumn (readBoard s1 newRef) column with
      | none => .error "Failed to find row"
      | some row =>
        if getCell (readBoard s1 newRef) row column.toNat ≠ e.currentPlayer then
          .error "Disc placement mismatch"
        else if checkWin (row : Int) column e.currentPlayer (readBoard s1 newRef) then
          .ok (s1, ⟨newRef, e.currentPlayer⟩, ⟨row, column, .won, some e.currentPlayer⟩)
        else if isFull (readBoard s1 newRef) then
          .ok (s1, ⟨newRef, e.currentPlayer⟩, ⟨row, column, .draw, none⟩)
        else
          .ok (s1, ⟨newRef, if e.currentPlayer = 1 then 2 else 1⟩,
            ⟨row, column, .playing, none⟩)

/-- What an engine reference observes: its board contents and its turn. -/
def engineView (s : Store) (e : EngineRef) : Engine :=
  ⟨readBoard s e.boardRef, e.currentPlayer⟩

lemma getD_append_left {α : Type _} (l l' : List α) (i : Nat) (d : α)
    (h : i < l.length) : (l ++ l').getD i d = l.getD i d := by
  induction l generalizing i with
  | nil => simp at h
  | cons x xs ih =>
    cases i with
    | zero => rfl
    | succ j =>
      simp only [List.cons_append, List.getD_cons_succ]
      exact ih j (by simpa using h)

lemma placeDiscRef_extends (s : Store) (a : Nat) (column : Int) (p : Nat)
    (s1 : Store) (newRef : Nat)
    (h : placeDiscRef s a column p = some (s1, newRef)) :
    ∃ g, s1 = s ++ [g] := by
  unfold placeDiscRef at h
  match hpd : placeDisc (readBoard s a) column p with
  | none =>
    rw [hpd] at h
    exact absurd h (by simp)
  | some g =>
    rw [hpd] at h
    simp at h
    exact ⟨g, h.1.symm⟩

lemma makeMoveRef_store (s : Store) (e : EngineRef) (column : Int)
    (s' : Store) (e' : EngineRef) (r : MoveResult)
    (h : makeMoveRef s e column = .ok (s', e', r)) :
    ∃ g, s' = s ++ [g] := by
  unfold makeMoveRef at h
  split at h
  · exact absurd h (by simp)
  · split at h
    · exact absurd h (by simp)
    · next s1 newRef heq =>
      obtain ⟨g, hs1⟩ :=
        placeDiscRef_extends s e.boardRef column e.currentPlayer s1 newRef heq
      split at h
      · exact absurd h (by simp)
      · split at h
        · exact absurd h (by simp)
        · split at h
          · simp only [Except.ok.injEq, Prod.mk.injEq] at h
            rw [← h.1]
            exact ⟨g, hs1⟩
          · split at h
            · simp only [Except.ok.injEq, Prod.mk.injEq] at h
              rw [← h.1]
              exact ⟨g, hs1⟩
            · simp only [Except.ok.injEq, Prod.mk.injEq] at h
              rw [← h.1]
              exact ⟨g, hs1⟩

/-- C10. Making a move on a clone of an engine leaves the original engine's
observable state (board contents and current player) unchanged: even though
the clone shares the original's board reference, placeDisc allocates a
fresh board, so simulations on clones never mutate the live engine. -/
theorem makeMoveRef_on_clone_frame (s : Store) (e : EngineRef) (column : Int)
    (s' : Store) (e' : EngineRef) (r : MoveResult)
    (hRef : e.boardRef < s.length)
    (h : makeMoveRef s (cloneRef e) column = .ok (s', e', r)) :
    engineView s' e = engineView s e := by
  obtain ⟨g, hs'⟩ := makeMoveRef_store s (cloneRef e) column s' e' r h
  unfold engineView readBoard
  rw [hs', getD_append_left s [g] e.boardRef [] hRef]

/-- Witness for C10: moving on a clone of the engine referencing the empty
board leaves the original's view unchanged. -/
theorem makeMoveRef_on_clone_frame_witness :
    ∃ s' e' r,
      makeMoveRef [emptyGrid] (cloneRef ⟨0, 1⟩) 0 = .ok (s', e', r) ∧
      engineView s' ⟨0, 1⟩ = engineView [emptyGrid] ⟨0, 1⟩ := by
  refine ⟨_, _, _, rfl, ?_⟩
  exact makeMoveRef_on_clone_frame [emptyGrid] ⟨0, 1⟩ 0 _ _ _ (by decide) rfl

/-- BotService: the opponent of a player number (botPlayerNumber is 1 or 2
in the source; opponentNumber = botPlayerNumber === 1 ? 2 : 1). -/
def oppOf (n : Nat) : Nat := if n = 1 then 2 else 1

/-- Distance from the center column used by BotService.getColumnOrder. -/
def centerDist (c : Nat) : Nat := ((c : Int) - 3).natAbs

/-- BotService.getColumnOrder: the source sorts with the stable JS sort and
comparator `|a - center| - |b - center|`; any stable sort by that key is
the same function, and we use insertion sort, which is stable. -/
def getColumnOrder (availableColumns : List Nat) : List Nat :=
  availableColumns.insertionSort (fun a b => centerDist a ≤ centerDist b)

/-- One simulation step: cloning the engine, playing `c`, and testing
whether the result is a win for `p`; a thrown error counts as no win
(the source catches it and continues). -/
def winsAt (e : Engine) (p : Nat) (c : Nat) : Bool :=
  match engineMakeMove e (c : Int) with
  | .ok (_, res) => decide (res.status = GameStatus.won ∧ res.winner = some p)
  | .error _ => false

/-- Loop body of BotService.findWinningMove: skips a column when the clone's
current player is not the requested player, otherwise plays it and returns
the first column that wins for that player. -/
def findWinningMoveGo (e : Engine) (player : Nat) : List Nat → Option Nat
  | [] => none
  | c :: rest =>
    if e.currentPlayer ≠ player then findWinningMoveGo e player rest
    else if winsAt e player c then some c
    else findWinningMoveGo e player rest

/-- BotService.findWinningMove (returns none for the source's -1). -/
def findWinningMove (e : Engine) (player : Nat) : Option Nat :=
  findWinningMoveGo e player (getColumnOrder (getAvailableColumns e.board))

/-- The number of immediately winning follow-up columns for `p` on board
`g` with `p` to move (the inner loop of the trap scans). -/
def threatCount (g : Grid) (p : Nat) : Nat :=
  (getAvailableColumns g).countP (fun nextCol => winsAt ⟨g, p⟩ p nextCol)

/-- Loop body of BotService.findTrapMove: play a column for the current
player and count the bot's winning follow-ups; a column leaving the bot
two or more threats is returned. -/
def findTrapMoveGo (bp : Nat) (e : Engine) : List Nat → Option Nat
  | [] => none
  | c :: rest =>
    match engineMakeMove e (c : Int) with
    | .error _ => findTrapMoveGo bp e rest
    | .ok (e1, _) =>
      if 2 ≤ threatCount e1.board bp then some c else findTrapMoveGo bp e rest

/-- BotService.findTrapMove. -/
def findTrapMove (bp : Nat) (e : Engine) : Option Nat :=
  findTrapMoveGo bp e (getColumnOrder (getAvailableColumns e.board))

/-- Loop body of BotService.findOpponentTrap: simulate the opponent moving
on the current board and count the opponent's winning follow-ups; a column
leaving the opponent two or more threats is returned if it is still a
valid move on the real board. -/
def findOpponentTrapGo (bp : Nat) (e : Engine) : List Nat → Option Nat
  | [] => none
  | c :: rest =>
    match engineMakeMove ⟨e.board, oppOf bp⟩ (c : Int) with
    | .error _ => findOpponentTrapGo bp e rest
    | .ok (e1, _) =>
      if 2 ≤ threatCount e1.board (oppOf bp) then
        if isValidMove e.board (c : Int) then some c else findOpponentTrapGo bp e rest
      else findOpponentTrapGo bp e rest

/-- BotService.findOpponentTrap. -/
def findOpponentTrap (bp : Nat) (e : Engine) : Option Nat :=
  findOpponentTrapGo bp e (getColumnOrder (getAvailableColumns e.board))

/-- BotService.evaluateWindow on a 4-cell window. -/
def evaluateWindow (bp : Nat) (window : List Nat) : Int :=
  let botCount := window.countP (fun cell => cell == bp)
  let opponentCount := window.countP (fun cell => cell == oppOf bp)
  let emptyCount := window.countP (fun cell => cell == 0)
  if 0 < botCount ∧ 0 < opponentCount then 0
  else if botCount = 4 then 1000
  else if botCount = 3 ∧ emptyCount = 1 then 50
  else if botCount = 2 ∧ emptyCount = 2 then 10
  else if botCount = 1 ∧ emptyCount = 3 then 1
  else if opponentCount = 4 then -1000
  else if opponentCount = 3 ∧ emptyCount = 1 then -80
  else if opponentCount = 2 ∧ emptyCount = 2 then -15
  else if opponentCount = 1 ∧ emptyCount = 3 then -1
  else 0

/-- BotService.evaluateBoard: sum of all horizontal, vertical and diagonal
4-windows plus the center-column bonus. -/
def evaluateBoard (bp : Nat) (g : Grid) : Int :=
  (((List.range 6).map (fun row =>
      ((List.range 4).map (fun col =>
        evaluateWindow bp [getCell g row col, getCell g row (col + 1),
          getCell g row (col + 2), getCell g row (col + 3)])).sum)).sum) +
  (((List.range 3).map (fun row =>
      ((List.range 7).map (fun col =>
        evaluateWindow bp [getCell g row col, getCell g (row + 1) col,
          getCell g (row + 2) col, getCell g (row + 3) col])).sum)).sum) +
  (((List.range 3).map (fun i =>
      ((List.range 4).map (fun col =>
        evaluateWindow bp [getCell g (i + 3) col, getCell g (i + 2) (col + 1),
          getCell g (i + 1) (col + 2), getCell g i (col + 3)])).sum)).sum) +
  (((List.range 3).map (fun row =>
      ((List.range 4).map (fun col =>
        evaluateWindow bp [getCell g row col, getCell g (row + 1) (col + 1),
          getCell g (row + 2) (col + 2), getCell g (row + 3) (col + 3)])).sum)).sum) +
  ((List.range 6).countP (fun row => getCell g row 3 == bp) : Int) * 6

/-- Minimax scores: integers extended with the -Infinity and Infinity
used as the initial best scores and alpha/beta bounds. -/
abbrev Score := WithBot (WithTop Int)

/-- A finite score. -/
def finScore (n : Int) : Score := ((n : WithTop Int) : WithBot (WithTop Int))

/-- Negative infinity. -/
def negInf : Score := ⊥

/-- Positive infinity. -/
def posInf : Score := ((⊤ : WithTop Int) : WithBot (WithTop Int))

/-- The MoveScore record of BotService.minimax. -/
structure MoveScore where
  column : Int
  score : Score

/-- The maximizing loop of BotService.minimax; `recurse` is the recursive
call at the next depth.  Skips columns whose simulation throws, tracks the
strictly-best score and its column, and breaks when beta ≤ alpha. -/
def maxLoop (recurse : Engine → Score → Score → MoveScore) (e : Engine) :
    List Nat → Int → Score → Score → Score → MoveScore
  | [], bestColumn, bestScore, _, _ => ⟨bestColumn, bestScore⟩
  | c :: rest, bestColumn, bestScore, alpha, beta =>
    match engineMakeMove e (c : Int) with
    | .error _ => maxLoop recurse e rest bestColumn bestScore alpha beta
    | .ok (e1, _) =>
      let r := recurse e1 alpha beta
      let bestScore' := if bestScore < r.score then r.score else bestScore
      let bestColumn' := if bestScore < r.score then (c : Int) else bestColumn
      let alpha' := max alpha bestScore'
      if beta ≤ alpha' then ⟨bestColumn', bestScore'⟩
      else maxLoop recurse e rest bestColumn' bestScore' alpha' beta

/-- The minimizing loop of BotService.minimax. -/
def minLoop (recurse : Engine → Score → Score → MoveScore) (e : Engine) :
    List Nat → Int → Score → Score → Score → MoveScore
  | [], bestColumn, bestScore, _, _ => ⟨bestColumn, bestScore⟩
  | c :: rest, bestColumn, bestScore, alpha, beta =>
    match engineMakeMove e (c : Int) with
    | .error _ => minLoop recurse e rest bestColumn bestScore alpha beta
    | .ok (e1, _) =>
      let r := recurse e1 alpha beta
      let bestScore' := if r.score < bestScore then r.score else bestScore
      let bestColumn' := if r.score < bestScore then (c : Int) else bestColumn
      let beta' := min beta bestScore'
      if beta' ≤ alpha then ⟨bestColumn', bestScore'⟩
      else minLoop recurse e rest bestColumn' bestScore' alpha beta'

/-- BotService.minimax with alpha-beta pruning.  At depth 0 (or with no
available column) the board is evaluated heuristically; a decided game
returns a saturating score offset by the remaining depth; otherwise the
ordered columns are explored by the maximizing or minimizing loop, whose
initial best column is the first ordered column. -/
def minimax (bp : Nat) : Nat → Engine → Bool → Score → Score → MoveScore
  | 0, e, _, _, _ => ⟨-1, finScore (evaluateBoard bp e.board)⟩
  | d + 1, e, isMaximizing, alpha, beta =>
    let available := getAvailableColumns e.board
    if available = [] then ⟨-1, finScore (evaluateBoard bp e.board)⟩
    else
      match gameStatusE e with
      | .won =>
        if getWinnerE e = some bp then ⟨-1, finScore (100000 + (d + 1 : Int))⟩
        else ⟨-1, finScore (-100000 - (d + 1 : Int))⟩
      | .draw => ⟨-1, finScore 0⟩
      | .playing =>
        let ordered := getColumnOrder available
        if isMaximizing then
          maxLoop (fun e1 a b => minimax bp d e1 false a b) e ordered
            ((ordered.headD 0 : Nat) : Int) negInf alpha beta
        else
          minLoop (fun e1 a b => minimax bp d e1 true a b) e ordered
            ((ordered.headD 0 : Nat) : Int) posInf alpha beta

/-- BotService.calculateMove: immediate win, immediate block, trap
creation, trap block, then depth-6 minimax. -/
def calculateMove (bp : Nat) (e : Engine) : Except String Int :=
  if getAvailableColumns e.board = [] then .error "No available moves"
  else
    match findWinningMove e bp with
    | some c => .ok (c : Int)
    | none =>
      match findWinningMove e (oppOf bp) with
      | some c => .ok (c : Int)
      | none =>
        match findTrapMove bp e with
        | some c => .ok (c : Int)
        | none =>
          match findOpponentTrap bp e with
          | some c => .ok (c : Int)
          | none => .ok (minimax bp 6 e true negInf posInf).column

/-- C6 counterexample.  An opponent-only three-with-one-empty window scores
-80, which is not the negation of the 50 the bot's own three-with-one-empty
window receives: the opponent scores are not exact mirrors. -/
theorem evaluateWindow_not_mirrored :
    ¬(evaluateWindow 2 [1, 1, 1, 0] = -(evaluateWindow 2 [2, 2, 2, 0])) := by
  decide

/-- The 4-cell window built from four cells. -/
def window4 (a b c d : Fin 3) : List Nat := [a.val, b.val, c.val, d.val]

/-- The source's `window.filter(cell => cell === p).length`. -/
def windowCount (p : Nat) (w : List Nat) : Nat := w.countP (fun cell => cell == p)

/-- C6 (amended).  For 4-cell windows over cells {0,1,2} and bot player 1
or 2: a window with discs of both players scores 0; a window with only the
bot's discs scores positively (1000 for four, 50 for three with one empty,
10 for two with two empty, 1 for one with three empty); a window with only
opponent discs scores negatively, with larger magnitudes than the bot's own
scores in the three-disc (-80 vs 50) and two-disc (-15 vs 10) cases, so the
scores mirror in sign but not in exact value except for four (±1000) and
one (±1) discs. -/
theorem evaluateWindow_values (bp : Nat) (hbp : bp = 1 ∨ bp = 2)
    (a b c d : Fin 3) :
    ((0 < windowCount bp (window4 a b c d) ∧
        0 < windowCount (oppOf bp) (window4 a b c d)) →
      evaluateWindow bp (window4 a b c d) = 0) ∧
    (windowCount bp (window4 a b c d) = 4 →
      evaluateWindow bp (window4 a b c d) = 1000) ∧
    ((windowCount bp (window4 a b c d) = 3 ∧ windowCount 0 (window4 a b c d) = 1) →
      evaluateWindow bp (window4 a b c d) = 50) ∧
    ((windowCount bp (window4 a b c d) = 2 ∧ windowCount 0 (window4 a b c d) = 2) →
      evaluateWindow bp (window4 a b c d) = 10) ∧
    ((windowCount bp (window4 a b c d) = 1 ∧ windowCount 0 (window4 a b c d) = 3) →
      evaluateWindow bp (window4 a b c d) = 1) ∧
    (windowCount (oppOf bp) (window4 a b c d) = 4 →
      evaluateWindow bp (window4 a b c d) = -1000) ∧
    ((windowCount (oppOf bp) (window4 a b c d) = 3 ∧ windowCount 0 (window4 a b c d) = 1) →
      evaluateWindow bp (window4 a b c d) = -80) ∧
    ((windowCount (oppOf bp) (window4 a b c d) = 2 ∧ windowCount 0 (window4 a b c d) = 2) →
      evaluateWindow bp (window4 a b c d) = -15) ∧
    ((windowCount (oppOf bp) (window4 a b c d) = 1 ∧ windowCount 0 (window4 a b c d) = 3) →
      evaluateWindow bp (window4 a b c d) = -1) ∧
    ((0 < windowCount bp (window4 a b c d) ∧
        windowCount (oppOf bp) (window4 a b c d) = 0) →
      0 < evaluateWindow bp (window4 a b c d)) ∧
    ((0 < windowCount (oppOf bp) (window4 a b c d) ∧
        windowCount bp (window4 a b c d) = 0) →
      evaluateWindow bp (window4 a b c d) < 0) := by
  rcases hbp with h | h <;> subst h <;> revert a b c d <;> decide

/-- Witness for C6's amended statement at bot 2 and window [1,1,1,0]. -/
theorem evaluateWindow_values_witness :
    ((0 < windowCount 2 (window4 1 1 1 0) ∧
        0 < windowCount (oppOf 2) (window4 1 1 1 0)) →
      evaluateWindow 2 (window4 1 1 1 0) = 0) ∧
    (windowCount 2 (window4 1 1 1 0) = 4 →
      evaluateWindow 2 (window4 1 1 1 0) = 1000) ∧
    ((windowCount 2 (window4 1 1 1 0) = 3 ∧ windowCount 0 (window4 1 1 1 0) = 1) →
      evaluateWindow 2 (window4 1 1 1 0) = 50) ∧
    ((windowCount 2 (window4 1 1 1 0) = 2 ∧ windowCount 0 (window4 1 1 1 0) = 2) →
      evaluateWindow 2 (window4 1 1 1 0) = 10) ∧
    ((windowCount 2 (window4 1 1 1 0) = 1 ∧ windowCount 0 (window4 1 1 1 0) = 3) →
      evaluateWindow 2 (window4 1 1 1 0) = 1) ∧
    (windowCount (oppOf 2) (window4 1 1 1 0) = 4 →
      evaluateWindow 2 (window4 1 1 1 0) = -1000) ∧
    ((windowCount (oppOf 2) (window4 1 1 1 0) = 3 ∧ windowCount 0 (window4 1 1 1 0) = 1) →
      evaluateWindow 2 (window4 1 1 1 0) = -80) ∧
    ((windowCount (oppOf 2) (window4 1 1 1 0) = 2 ∧ windowCount 0 (window4 1 1 1 0) = 2) →
      evaluateWindow 2 (window4 1 1 1 0) = -15) ∧
    ((windowCount (oppOf 2) (window4 1 1 1 0) = 1 ∧ windowCount 0 (window4 1 1 1 0) = 3) →
      evaluateWindow 2 (window4 1 1 1 0) = -1) ∧
    ((0 < windowCount 2 (window4 1 1 1 0) ∧
        windowCount (oppOf 2) (window4 1 1 1 0) = 0) →
      0 < evaluateWindow 2 (window4 1 1 1 0)) ∧
    ((0 < windowCount (oppOf 2) (window4 1 1 1 0) ∧
        windowCount 2 (window4 1 1 1 0) = 0) →
      evaluateWindow 2 (window4 1 1 1 0) < 0) :=
  evaluateWindow_values 2 (Or.inr rfl) 1 1 1 0

/-- A position with the bot (player 2) to move in which the opponent
(player 1) threatens an immediate vertical win in column 0 and the bot has
no immediate win but can create a double threat by playing column 5. -/
def gridC4 : Grid :=
  [[0, 0, 0, 0, 0, 0, 0],
   [0, 0, 0, 0, 0, 0, 0],
   [0, 0, 0, 0, 0, 0, 0],
   [1, 0, 0, 2, 2, 0, 0],
   [1, 0, 0, 1, 2, 2, 2],
   [1, 0, 0, 1, 1, 2, 1]]

/-- The engine at gridC4 with the bot (player 2) to move. -/
def engC4 : Engine := ⟨gridC4, 2⟩

/-- C4 (failing-input evaluation).  At engC4 the opponent's only immediate
winning column is 0 and the bot has no immediate win, yet calculateMove
returns column 5 (a trap-creating move), not the blocking column 0: the
immediate-block layer never fires because findWinningMove skips every
column when the cloned engine's current player differs from the requested
player, which is always the case for the opponent on the bot's turn. -/
theorem calculateMove_fails_to_block :
    calculateMove 2 engC4 = .ok 5 ∧
    winsAt ⟨gridC4, 1⟩ 1 0 = true ∧
    (getAvailableColumns gridC4).all (fun c => !(winsAt engC4 2 c)) = true ∧
    (getAvailableColumns gridC4).all
      (fun c => !(winsAt ⟨gridC4, 1⟩ 1 c) || c == 0) = true ∧
    findWinningMove engC4 (oppOf 2) = none ∧
    (5 : Int) ≠ (0 : Int) := by
  refine ⟨by rfl, by decide, by decide, by decide, by rfl, by decide⟩

lemma mem_getColumnOrder (l : List Nat) (c : Nat) :
    c ∈ getColumnOrder l ↔ c ∈ l := by
  unfold getColumnOrder
  exact (List.perm_insertionSort _ l).mem_iff

lemma getColumnOrder_ne_nil (l : List Nat) (h : l ≠ []) :
    getColumnOrder l ≠ [] := by
  intro hc
  apply h
  have := (List.perm_insertionSort (fun a b => centerDist a ≤ centerDist b) l).length_eq
  rw [show List.insertionSort (fun a b => centerDist a ≤ centerDist b) l
      = getColumnOrder l from rfl, hc] at this
  exact List.length_eq_zero.mp this.symm

lemma headD_mem (l : List Nat) (d : Nat) (h : l ≠ []) : l.headD d ∈ l := by
  cases l with
  | nil => exact absurd rfl h
  | cons x xs => exact List.mem_cons_self x xs

lemma mem_getAvailableColumns (g : Grid) (c : Nat) :
    c ∈ getAvailableColumns g ↔ c < 7 ∧ isValidMove g (c : Int) = true := by
  unfold getAvailableColumns
  rw [List.mem_filter, List.mem_range]

lemma findWinningMoveGo_sound (e : Engine) (p : Nat) :
    ∀ (cols : List Nat) (c : Nat), findWinningMoveGo e p cols = some c →
      c ∈ cols ∧ winsAt e p c = true := by
  intro cols
  induction cols with
  | nil => intro c h; exact absurd h (by simp [findWinningMoveGo])
  | cons x rest ih =>
    intro c h
    unfold findWinningMoveGo at h
    split at h
    · obtain ⟨hm, hw⟩ := ih c h
      exact ⟨List.mem_cons_of_mem x hm, hw⟩
    · split at h
      · obtain rfl : x = c := by simpa using h
        exact ⟨List.mem_cons_self x rest, by assumption⟩
      · obtain ⟨hm, hw⟩ := ih c h
        exact ⟨List.mem_cons_of_mem x hm, hw⟩

lemma findWinningMoveGo_complete (e : Engine) (p : Nat) (hp : e.currentPlayer = p) :
    ∀ (cols : List Nat), findWinningMoveGo e p cols = none →
      ∀ c ∈ cols, winsAt e p c = false := by
  intro cols
  induction cols with
  | nil => intro _ c hc; exact absurd hc (by simp)
  | cons x rest ih =>
    intro h c hc
    unfold findWinningMoveGo at h
    rw [if_neg (by rw [hp]; exact fun hh => hh rfl)] at h
    split at h
    · exact absurd h (by simp)
    · rcases List.mem_cons.mp hc with rfl | hc'
      · rename_i hw
        exact Bool.not_eq_true _ ▸ (by simpa using hw)
      · exact ih h c hc'

lemma findTrapMoveGo_mem (bp : Nat) (e : Engine) :
    ∀ (cols : List Nat) (c : Nat), findTrapMoveGo bp e cols = some c → c ∈ cols := by
  intro cols
  induction cols with
  | nil => intro c h; exact absurd h (by simp [findTrapMoveGo])
  | cons x rest ih =>
    intro c h
    unfold findTrapMoveGo at h
    split at h
    · exact List.mem_cons_of_mem x (ih c h)
    · split at h
      · obtain rfl : x = c := by simpa using h
        exact List.mem_cons_self x rest
      · exact List.mem_cons_of_mem x (ih c h)

lemma findOpponentTrapGo_valid (bp : Nat) (e : Engine) :
    ∀ (cols : List Nat) (c : Nat), findOpponentTrapGo bp e cols = some c →
      c ∈ cols ∧ isValidMove e.board (c : Int) = true := by
  intro cols
  induction cols with
  | nil => intro c h; exact absurd h (by simp [findOpponentTrapGo])
  | cons x rest ih =>
    intro c h
    unfold findOpponentTrapGo at h
    split at h
    · obtain ⟨hm, hv⟩ := ih c h
      exact ⟨List.mem_cons_of_mem x hm, hv⟩
    · split at h
      · split at h
        · obtain rfl : x = c := by simpa using h
          exact ⟨List.mem_cons_self x rest, by assumption⟩
        · obtain ⟨hm, hv⟩ := ih c h
          exact ⟨List.mem_cons_of_mem x hm, hv⟩
      · obtain ⟨hm, hv⟩ := ih c h
        exact ⟨List.mem_cons_of_mem x hm, hv⟩

lemma maxLoop_column_mem (recurse : Engine → Score → Score → MoveScore)
    (e : Engine) (P : Int → Prop) :
    ∀ (cols : List Nat) (bc : Int) (bs alpha beta : Score),
      P bc → (∀ c ∈ cols, P ((c : Nat) : Int)) →
      P (maxLoop recurse e cols bc bs alpha beta).column := by
  intro cols
  induction cols with
  | nil =>
    intro bc bs alpha beta hbc _
    simpa [maxLoop] using hbc
  | cons c rest ih =>
    intro bc bs alpha beta hbc hcols
    simp only [maxLoop]
    split
    · exact ih bc bs alpha beta hbc (fun x hx => hcols x (List.mem_cons_of_mem c hx))
    · split
      · split
        · exact hcols c (List.mem_cons_self c rest)
        · exact ih _ _ _ _ (hcols c (List.mem_cons_self c rest))
            (fun x hx => hcols x (List.mem_cons_of_mem c hx))
      · split
        · exact hbc
        · exact ih _ _ _ _ hbc (fun x hx => hcols x (List.mem_cons_of_mem c hx))

lemma minimax_root_column_mem (bp : Nat) (d : Nat) (e : Engine)
    (alpha beta : Score)
    (hAvail : getAvailableColumns e.board ≠ [])
    (hProg : gameStatusE e = .playing) :
    ∃ cn, cn ∈ getAvailableColumns e.board ∧
      (minimax bp (d + 1) e true alpha beta).column = (cn : Int) := by
  have hP : ∀ x ∈ getColumnOrder (getAvailableColumns e.board),
      ∃ cn, cn ∈ getAvailableColumns e.board ∧ ((x : Nat) : Int) = (cn : Int) :=
    fun x hx => ⟨x, (mem_getColumnOrder _ x).mp hx, rfl⟩
  have hhead : (getColumnOrder (getAvailableColumns e.board)).headD 0 ∈
      getColumnOrder (getAvailableColumns e.board) :=
    headD_mem _ 0 (getColumnOrder_ne_nil _ hAvail)
  simp only [minimax]
  rw [if_neg hAvail]
  simp only [hProg, if_true]
  exact maxLoop_column_mem _ e
    (fun x => ∃ cn, cn ∈ getAvailableColumns e.board ∧ x = (cn : Int))
    _ _ _ alpha beta (hP _ hhead) hP

/-- C5. On a state with at least one legal column where it is the bot's
turn and the game is in progress, calculateMove returns a legal column
(in range with an empty top cell); and when some legal column wins
immediately for the bot, the returned column is such a winning column. -/
theorem calculateMove_legal_and_winning (bp : Nat) (e : Engine)
    (hAvail : getAvailableColumns e.board ≠ [])
    (hTurn : e.currentPlayer = bp)
    (hProg : gameStatusE e = .playing) :
    (∃ cn, cn ∈ getAvailableColumns e.board ∧
      isValidMove e.board (cn : Int) = true ∧
      calculateMove bp e = .ok (cn : Int)) ∧
    ((∃ c ∈ getAvailableColumns e.board, winsAt e bp c = true) →
      ∃ cn, cn ∈ getAvailableColumns e.board ∧ winsAt e bp cn = true ∧
        calculateMove bp e = .ok (cn : Int)) := by
  have hvalid : ∀ cn, cn ∈ getAvailableColumns e.board →
      isValidMove e.board (cn : Int) = true :=
    fun cn h => ((mem_getAvailableColumns e.board cn).mp h).2
  unfold calculateMove
  rw [if_neg hAvail]
  cases hW : findWinningMove e bp with
  | some c =>
    obtain ⟨hmem, hwin⟩ := findWinningMoveGo_sound e bp _ c hW
    have hav : c ∈ getAvailableColumns e.board := (mem_getColumnOrder _ c).mp hmem
    exact ⟨⟨c, hav, hvalid c hav, rfl⟩, fun _ => ⟨c, hav, hwin, rfl⟩⟩
  | none =>
    have hNoWin : ∀ c ∈ getAvailableColumns e.board, winsAt e bp c = false := by
      intro c hc
      exact findWinningMoveGo_complete e bp hTurn _ hW c
        ((mem_getColumnOrder _ c).mpr hc)
    refine ⟨?_, ?_⟩
    · cases hB : findWinningMove e (oppOf bp) with
      | some c =>
        obtain ⟨hmem, _⟩ := findWinningMoveGo_sound e (oppOf bp) _ c hB
        have hav : c ∈ getAvailableColumns e.board := (mem_getColumnOrder _ c).mp hmem
        exact ⟨c, hav, hvalid c hav, rfl⟩
      | none =>
        cases hT : findTrapMove bp e with
        | some c =>
          have hmem := findTrapMoveGo_mem bp e _ c hT
          have hav : c ∈ getAvailableColumns e.board := (mem_getColumnOrder _ c).mp hmem
          exact ⟨c, hav, hvalid c hav, rfl⟩
        | none =>
          cases hO : findOpponentTrap bp e with
          | some c =>
            obtain ⟨hmem, _⟩ := findOpponentTrapGo_valid bp e _ c hO
            have hav : c ∈ getAvailableColumns e.board := (mem_getColumnOrder _ c).mp hmem
            exact ⟨c, hav, hvalid c hav, rfl⟩
          | none =>
            obtain ⟨cn, hav, hcol⟩ :=
              minimax_root_column_mem bp 5 e negInf posInf hAvail hProg
            exact ⟨cn, hav, hvalid cn hav, by rw [hcol]⟩
    · rintro ⟨c, hc, hw⟩
      exact absurd hw (by rw [hNoWin c hc]; simp)

/-- Witness for C5 at the empty board with the bot as player 1. -/
theorem calculateMove_legal_and_winning_witness :
    (∃ cn, cn ∈ getAvailableColumns emptyGrid ∧
      isValidMove emptyGrid (cn : Int) = true ∧
      calculateMove 1 ⟨emptyGrid, 1⟩ = .ok (cn : Int)) ∧
    ((∃ c ∈ getAvailableColumns emptyGrid, winsAt ⟨emptyGrid, 1⟩ 1 c = true) →
      ∃ cn, cn ∈ getAvailableColumns emptyGrid ∧ winsAt ⟨emptyGrid, 1⟩ 1 cn = true ∧
        calculateMove 1 ⟨emptyGrid, 1⟩ = .ok (cn : Int)) :=
  calculateMove_legal_and_winning 1 ⟨emptyGrid, 1⟩ (by decide) rfl (by decide)

/-- A socketPlayers entry of the realtime coordinator: the bound identity,
its session id, and the disconnect timestamp (set on transport loss,
absent on a fresh binding). -/
structure SocketRecord (ι : Type) where
  playerId : ι
  gameId : Option String
  disconnectedAt : Option Nat
  deriving DecidableEq

/-- A live session as the coordinator sees it: id, the two identities and
their display names (handleReconnect looks sessions up by name). -/
structure GameRec (ι : Type) where
  gid : String
  p1 : ι
  p2 : ι
  u1 : String
  u2 : String
  deriving DecidableEq

/-- A scheduled forfeit callback: the closure captures the disconnecting
socket's id, the session object and the forfeiting identity, and runs at
`fireAt` = disconnect time + 30000 ms. -/
structure ForfeitTimer (ι : Type) where
  socketId : Nat
  game : GameRec ι
  playerId : ι
  fireAt : Nat
  deriving DecidableEq

/-- Coordinator state: the socketPlayers map (keyed by socket id), the
session registry, the pending forfeit timers, and the game-over-by-forfeit
events emitted so far as (session id, winner id) pairs. -/
structure WSState (ι : Type) where
  socketPlayers : List (Nat × SocketRecord ι)
  games : List (GameRec ι)
  timers : List (ForfeitTimer ι)
  forfeited : List (String × ι)
  deriving DecidableEq

/-- Map.get on socketPlayers. -/
def socketGet {ι : Type} (m : List (Nat × SocketRecord ι)) (k : Nat) :
    Option (SocketRecord ι) :=
  (m.find? (fun p => p.1 == k)).map (fun p => p.2)

/-- Map.set on socketPlayers: replaces an existing binding or inserts. -/
def socketSet {ι : Type} (m : List (Nat × SocketRecord ι)) (k : Nat)
    (v : SocketRecord ι) : List (Nat × SocketRecord ι) :=
  if m.any (fun p => p.1 == k) then
    m.map (fun p => if p.1 == k then (k, v) else p)
  else m ++ [(k, v)]

/-- gameStateManager.getGame. -/
def wsGetGame {ι : Type} (st : WSState ι) (gid : String) : Option (GameRec ι) :=
  st.games.find? (fun g => g.gid == gid)

/-- handleGameForfeit: the other identity wins, a game-over event with
forfeit is emitted, and the session is removed from the registry (the
database save and the socket emits are external effects). -/
def handleGameForfeit {ι : Type} [DecidableEq ι] (st : WSState ι)
    (g : GameRec ι) (forfeitingPlayerId : ι) : WSState ι :=
  let winner := if g.p1 = forfeitingPlayerId then g.p2 else g.p1
  { st with
    forfeited := st.forfeited ++ [(g.gid, winner)]
    games := st.games.filter (fun gg => !(gg.gid == g.gid)) }

/-- handleDisconnect at time `now`: marks the socket's record with the
disconnect timestamp and, when it is bound to a registered session,
schedules the forfeit callback for `now + 30000`, capturing the socket id,
the session and the identity.  (Freeing the display name and dequeuing
from matchmaking are outside this claim; an in-session identity is not in
the queue.) -/
def handleDisconnect {ι : Type} [DecidableEq ι] (st : WSState ι) (sid : Nat)
    (now : Nat) : WSState ι :=
  match socketGet st.socketPlayers sid with
  | none => st
  | some rec =>
    let st1 : WSState ι :=
      { st with socketPlayers :=
          socketSet st.socketPlayers sid { rec with disconnectedAt := some now } }
    match rec.gameId with
    | none => st1
    | some gid =>
      match wsGetGame st1 gid with
      | none => st1
      | some g =>
        { st1 with timers := st1.timers ++ [⟨sid, g, rec.playerId, now + 30000⟩] }

/-- The scheduled forfeit callback, run at time `now` (its scheduled
`fireAt`): if the socket id it captured still has a record carrying a
disconnect mark at least 30000 ms old, the captured session is forfeited.
Nat subtraction truncates at 0 exactly as the sign checks in the source
make the negative case fail the bound. -/
def fireForfeitTimer {ι : Type} [DecidableEq ι] (st : WSState ι)
    (t : ForfeitTimer ι) (now : Nat) : WSState ι :=
  let st1 : WSState ι := { st with timers := st.timers.filter (fun x => !(decide (x = t))) }
  match socketGet st1.socketPlayers t.socketId with
  | none => st1
  | some rec =>
    match rec.disconnectedAt with
    | none => st1
    | some d =>
      if 30000 ≤ now - d then handleGameForfeit st1 t.game t.playerId else st1

/-- handleReconnect at time `now` on socket `sid`: finds the session (by id
when given, else by display name), picks the named identity, applies the
timeout check only to the record bound to `sid` itself, and then binds
`sid` with a fresh record carrying no disconnect mark.  The record of the
socket the identity disconnected from is neither cleared nor deleted. -/
def handleReconnect {ι : Type} [DecidableEq ι] (st : WSState ι) (sid : Nat)
    (username : String) (gameId : Option String) (now : Nat) : WSState ι :=
  match
    match gameId with
    | some gid => wsGetGame st gid
    | none => st.games.find? (fun g => g.u1 == username || g.u2 == username)
  with
  | none => st
  | some g =>
    let pid := if g.u1 == username then g.p1 else g.p2
    match socketGet st.socketPlayers sid with
    | some rec =>
      match rec.disconnectedAt with
      | some d =>
        if 30000 < now - d then handleGameForfeit st g pid
        else { st with socketPlayers := socketSet st.socketPlayers sid ⟨pid, some g.gid, none⟩ }
      | none =>
        { st with socketPlayers := socketSet st.socketPlayers sid ⟨pid, some g.gid, none⟩ }
    | none =>
      { st with socketPlayers := socketSet st.socketPlayers sid ⟨pid, some g.gid, none⟩ }

/-- The session and coordinator state used for the C9 runs: identity 1
(name a) bound on socket 0 to session g against identity 2 (name b). -/
def gC9 : GameRec Nat := ⟨"g", 1, 2, "a", "b"⟩

/-- Initial coordinator state for the C9 runs. -/
def stC9 : WSState Nat := ⟨[(0, ⟨1, some "g", none⟩)], [gC9], [], []⟩

/-- C9 (failing-input evaluation).  Identity 1's transport drops at
t = 1000, arming the forfeit callback for t = 31000.  The
elapse-without-reconnect half behaves as claimed: firing the callback with
no reconnect removes the session and awards identity 2 the win by forfeit.
But when identity 1 reconnects at t = 2000 — well inside the 30 s window —
on a fresh socket id 7 (a reconnecting transport has a new connection id),
the reconnect succeeds and rebinds the identity, yet the callback still
finds the old socket 0's record with its disconnect mark, which
handleReconnect never cleared, so at t = 31000 the session is removed and
identity 2 is awarded the forfeit win anyway: an in-window reconnect does
not preserve the session. -/
theorem reconnect_does_not_cancel_forfeit :
    (handleDisconnect stC9 0 1000).timers = [⟨0, gC9, 1, 31000⟩] ∧
    (fireForfeitTimer (handleDisconnect stC9 0 1000) ⟨0, gC9, 1, 31000⟩ 31000).games = [] ∧
    (fireForfeitTimer (handleDisconnect stC9 0 1000) ⟨0, gC9, 1, 31000⟩ 31000).forfeited
      = [("g", 2)] ∧
    (handleReconnect (handleDisconnect stC9 0 1000) 7 "a" (some "g") 2000).games = [gC9] ∧
    socketGet (handleReconnect (handleDisconnect stC9 0 1000) 7 "a" (some "g") 2000).socketPlayers 7
      = some ⟨1, some "g", none⟩ ∧
    (fireForfeitTimer (handleReconnect (handleDisconnect stC9 0 1000) 7 "a" (some "g") 2000)
        ⟨0, gC9, 1, 31000⟩ 31000).games = [] ∧
    (fireForfeitTimer (handleReconnect (handleDisconnect stC9 0 1000) 7 "a" (some "g") 2000)
        ⟨0, gC9, 1, 31000⟩ 31000).forfeited = [("g", 2)] := by
  refine ⟨by decide, by decide, by decide, by decide, by decide, by decide, by decide⟩
